import Mathlib

/-!
Verification of the manul load-generation core against its specification.

The Go sources are shallowly embedded: machine integers become `Int`/`Nat`,
`time.Duration` (an int64 nanosecond count) becomes `Int`, `float64` values
are modelled by `ℚ`, fallible calls return `Option`/`Except`, and the
Worker's single-threaded select loop becomes a step relation on an explicit
state record.
-/

set_option linter.unusedVariables false

namespace Manul

/-- Go `time.Duration`: an int64 count of nanoseconds, modelled as `Int`. -/
abbrev Duration := Int

/-- Go `time.Second` = 1e9 nanoseconds. -/
def second : Duration := 1000000000

/-- Truncation of a rational toward zero: the semantics of Go's conversion
`time.Duration(f)` from a float64 value (float arithmetic is modelled by `ℚ`).
`Int.div` rounds toward zero, and `q.num / q.den` is in lowest terms. -/
def ratTrunc (q : ℚ) : Int := q.num.tdiv (q.den : Int)

/-- Errors surfaced by the worker and loadtester APIs, classified by the
semantic kind the spec names: `invalid` for a caller value violating a
constraint, `closed` for an operation on a Worker whose context is cancelled
(`context.Cause` returns the cancellation cause, carried here as a string). -/
inductive GoError where
  | invalid (msg : String)
  | closed (cause : String)
deriving DecidableEq

/-- Go `WorkerConfig`: the runtime-tunable quadruple. `Qps` (a Go float64)
is modelled as `ℚ`; `IntervalGenerator` is `none` for ASAP mode, otherwise
the pure function from qps to the next interval. -/
structure WorkerConfig where
  InFlight : Int
  IntervalGenerator : Option (ℚ → Duration)
  Qps : ℚ
  Timeout : Duration

/-- Go `WorkerConfig.IsValid`: returns the first violated constraint, or
`none` when the configuration is valid. -/
def WorkerConfig.IsValid (cfg : WorkerConfig) : Option String :=
  if cfg.InFlight < 0 then some "InFlight < 0"
  else if cfg.Qps < 0 then some "Qps < 0"
  else if cfg.Timeout < 0 then some "Timeout < 0"
  else none

/-- Go `StableIntervalGenerator`: produces fixed intervals,
`time.Duration(float64(time.Second) / qps)`, and 0 when qps = 0. -/
def StableIntervalGenerator (qps : ℚ) : Duration :=
  if qps = 0 then 0 else ratTrunc ((second : ℚ) / qps)

/-- Go `ExponentialIntervalGenerator`: produces exponentially distributed
intervals `time.Duration(rand.ExpFloat64() / qps * float64(time.Second))`,
and 0 when qps = 0. The draw of `rand.ExpFloat64()` is modelled as the
explicit parameter `sample`. -/
def ExponentialIntervalGenerator (sample : ℚ) (qps : ℚ) : Duration :=
  if qps = 0 then 0 else ratTrunc (sample / qps * (second : ℚ))

/-- State of one Worker as owned by its loop goroutine.

* `freeTokens` — number of permits in the `tokens` channel;
* `inFlight` — launched `do` tasks that have not yet released their permit;
* `currentInFlight` — the loop's local effective ceiling variable;
* `timerSet` — the loop's `timer` variable is non-nil;
* `timerPending` — that timer channel has not fired yet;
* `triggerEnabled` — the loop's `trigger` variable is bound to `tokens`;
* `closed` — `some cause` once the Worker context is cancelled with that cause;
* `histMax` — a ghost (history) variable recording the maximum of
  `cfg.InFlight` over the initial configuration and every configuration the
  loop has adopted so far; no operation reads it. -/
structure Worker where
  maxInFlight : Int
  cfg : WorkerConfig
  freeTokens : Nat
  inFlight : Nat
  currentInFlight : Int
  timerSet : Bool
  timerPending : Bool
  triggerEnabled : Bool
  closed : Option String
  histMax : Int

/-- Go `Worker.setTimer`, as a function of the configuration it reads:
`true` iff the call returns a non-nil timer channel, which the source does
exactly when the generator is non-nil and its interval is positive. -/
def setTimer (cfg : WorkerConfig) : Bool :=
  match cfg.IntervalGenerator with
  | none => false
  | some gen => decide (0 < gen cfg.Qps)

/-- The loop state right after `NewWorker` filled the token channel with
`cfg.InFlight` permits (none when `InFlight ≤ 0`: the Go fill loop runs
zero times) and `Worker.loop` ran its initialization: `currentInFlight :=
w.cfg.InFlight`, `timer := w.setTimer()`, and in ASAP mode (nil timer)
`trigger = w.tokens`. -/
def initWorker (maxInFlight : Int) (cfg : WorkerConfig) : Worker :=
  { maxInFlight := maxInFlight
    cfg := cfg
    freeTokens := cfg.InFlight.toNat
    inFlight := 0
    currentInFlight := cfg.InFlight
    timerSet := setTimer cfg
    timerPending := setTimer cfg
    triggerEnabled := !(setTimer cfg)
    closed := none
    histMax := cfg.InFlight }

/-- The fields of the Worker record that `NewWorker` sets before applying
the caller's options: the defaults are `maxInFlight = 1` and an ASAP
configuration with `InFlight = 1` and a one second timeout. -/
structure WorkerInit where
  maxInFlight : Int
  cfg : WorkerConfig

/-- Defaults `NewWorker` installs before option application. -/
def defaultWorkerInit : WorkerInit :=
  { maxInFlight := 1
    cfg := { InFlight := 1, IntervalGenerator := none, Qps := 0, Timeout := second } }

/-- Go `WithConfig` option. -/
def WithConfig (cfg : WorkerConfig) : WorkerInit → WorkerInit :=
  fun w => { w with cfg := cfg }

/-- Go `WithMaxInFlight` option. -/
def WithMaxInFlight (maxInFlight : Int) : WorkerInit → WorkerInit :=
  fun w => { w with maxInFlight := maxInFlight }

/-- Application of the option list to the defaults, in order. -/
def resolveOpts (opts : List (WorkerInit → WorkerInit)) : WorkerInit :=
  opts.foldl (fun b o => o b) defaultWorkerInit

/-- Go `NewWorker`. The job function is opaque to the core; only whether it
is nil matters to construction, carried as `jobDefined`. On success the
running Worker starts in `initWorker`'s state. -/
def NewWorker (jobDefined : Bool) (opts : List (WorkerInit → WorkerInit)) :
    Except GoError Worker :=
  if jobDefined = false then .error (.invalid "job function should be be defined")
  else
    let r := resolveOpts opts
    if r.maxInFlight < 0 then .error (.invalid "maxInFlight < 0")
    else if r.maxInFlight < r.cfg.InFlight then
      .error (.invalid "cfg.InFlight > maxInFlight limit")
    else .ok (initWorker r.maxInFlight r.cfg)

/-- Bool-valued test that an `Except` result is a success. -/
def exceptIsOk (e : Except GoError Worker) : Bool :=
  match e with
  | .ok _ => true
  | .error _ => false

/-- Bool-valued test that a call result is an Invalid-kind error. -/
def invalidErr (e : Option GoError) : Bool :=
  match e with
  | some (.invalid _) => true
  | _ => false

/-- Bool-valued test that an `Except` result is an Invalid-kind error. -/
def invalidErrE (e : Except GoError Worker) : Bool :=
  match e with
  | .error (.invalid _) => true
  | _ => false

/-- The loop's `cfgChan` branch: adopt the configuration, push one permit
and increment `currentInFlight` while `cfg.InFlight > currentInFlight`
(so `currentInFlight` becomes the maximum of the two and the channel gains
the difference), re-arm the timer from the new configuration, and on a nil
timer bind `trigger` to the token channel (a non-nil timer leaves the
`trigger` binding as it was). -/
def Worker.applyConfig (w : Worker) (cfg : WorkerConfig) : Worker :=
  { w with
    cfg := cfg
    freeTokens := w.freeTokens + (cfg.InFlight - w.currentInFlight).toNat
    currentInFlight := max w.currentInFlight cfg.InFlight
    histMax := max w.histMax cfg.InFlight
    timerSet := setTimer cfg
    timerPending := setTimer cfg
    triggerEnabled := if setTimer cfg then w.triggerEnabled else true }

/-- Go `Worker.GetConfig`: fails with the cancellation cause once the
context is done, otherwise the loop replies with a copy of `w.cfg` sent by
value over the reply channel (value semantics in the model). -/
def Worker.GetConfig (w : Worker) : Except GoError WorkerConfig :=
  match w.closed with
  | some cause => .error (.closed cause)
  | none => .ok w.cfg

/-- Go `Worker.SetConfig` together with the loop iteration that receives the
accepted configuration: validity first, then the `maxInFlight` bound, then
the select between context cancellation and delivery to the loop. Returns
the call's error (`none` on success) and the loop state after the call; a
failing call never reaches the loop, so the state is returned unchanged. -/
def Worker.setConfigCall (w : Worker) (cfg : WorkerConfig) :
    Option GoError × Worker :=
  match cfg.IsValid with
  | some msg => (some (.invalid msg), w)
  | none =>
    if w.maxInFlight < cfg.InFlight then (some (.invalid "InFlight < maxInFlight"), w)
    else
      match w.closed with
      | some cause => (some (.closed cause), w)
      | none => (none, w.applyConfig cfg)

/-- Cause installed by `Worker.Close` (the package's `workerClosed` error). -/
def workerClosedMsg : String := "Worker closed"

/-- Cancellation of the Worker context with a cause: `CancelCauseFunc`
records only the first cause, later calls are no-ops. -/
def Worker.cancelWith (w : Worker) (cause : String) : Worker :=
  match w.closed with
  | some _ => w
  | none => { w with closed := some cause }

/-- Go `Worker.Close`: cancels the Worker context with `workerClosed`. -/
def Worker.Close (w : Worker) : Worker := w.cancelWith workerClosedMsg

/-- The launch path of the loop's `trigger` branch: consume the permit,
spawn `go w.do(...)` (one more in-flight task), and when the `timer`
variable is non-nil disable `trigger` and arm a fresh timer from the
current configuration. -/
def Worker.launch (w : Worker) : Worker :=
  let w₁ : Worker := { w with freeTokens := w.freeTokens - 1, inFlight := w.inFlight + 1 }
  if w₁.timerSet then
    { w₁ with
      triggerEnabled := false
      timerSet := setTimer w₁.cfg
      timerPending := setTimer w₁.cfg }
  else w₁

/-- The number of permits the loop will still silently discard on acquire to
realize a downsize (spec glossary "pending drops"): the gap between the
loop's effective ceiling and the configured target. -/
def Worker.pendingDrops (w : Worker) : Int := w.currentInFlight - w.cfg.InFlight

/-- One step of a Worker execution: one iteration of the select loop
(`timerFires`, `triggerDrop`, `triggerLaunch`, `setConfig`, `getConfig`),
a completed `do` task releasing its permit (`jobReturns`, concurrent with
the loop, possible also after termination), or a cancellation of the Worker
context (`cancel`: `Close` or the parent context). Loop branches require
the context to be alive; `triggerDrop` against `triggerLaunch` mirrors the
source's `currentInFlight > w.cfg.InFlight` test with its `continue`. -/
inductive WStep : Worker → Worker → Prop where
  | timerFires (w : Worker) : w.closed = none → w.timerPending = true →
      WStep w { w with timerPending := false, triggerEnabled := true }
  | triggerDrop (w : Worker) : w.closed = none → w.triggerEnabled = true →
      0 < w.freeTokens → w.cfg.InFlight < w.currentInFlight →
      WStep w { w with freeTokens := w.freeTokens - 1,
                       currentInFlight := w.currentInFlight - 1 }
  | triggerLaunch (w : Worker) : w.closed = none → w.triggerEnabled = true →
      0 < w.freeTokens → ¬ w.cfg.InFlight < w.currentInFlight →
      WStep w w.launch
  | jobReturns (w : Worker) : 0 < w.inFlight →
      WStep w { w with inFlight := w.inFlight - 1, freeTokens := w.freeTokens + 1 }
  | setConfig (w : Worker) (c : WorkerConfig) : w.closed = none →
      c.IsValid = none → c.InFlight ≤ w.maxInFlight →
      WStep w (w.applyConfig c)
  | getConfig (w : Worker) : w.closed = none → WStep w w
  | cancel (w : Worker) (cause : String) : WStep w (w.cancelWith cause)

/-- Reflexive-transitive closure of `WStep`: the states an execution can
reach from a given start state. -/
inductive Reachable : Worker → Worker → Prop where
  | refl (w : Worker) : Reachable w w
  | tail {w₁ w₂ w₃ : Worker} : Reachable w₁ w₂ → WStep w₂ w₃ → Reachable w₁ w₃

/-- The loop invariant tying the token channel, the in-flight count, the
effective ceiling and the ghost history maximum together. -/
def WorkerInv (w : Worker) : Prop :=
  (w.freeTokens : Int) + (w.inFlight : Int) = w.currentInFlight ∧
  w.cfg.InFlight ≤ w.currentInFlight ∧
  w.currentInFlight ≤ w.histMax

/-- Outcome of running a Go function body: it returns a value or panics. -/
inductive GoOutcome (α : Type) where
  | ret (a : α)
  | panicked
deriving DecidableEq

/-- One run of the launched task `Worker.do`, given the job call's outcome
(the job's Go error is `Option String`). The body defers the permit release
and then returns `w.job(ctx)`: Go runs deferred calls during panic unwinding
as well, so the release (first component `true`) happens on every outcome,
and since the body contains no `recover`, the job's outcome — a panic
included — propagates unchanged out of the function. -/
def workerDo (jobResult : GoOutcome (Option String)) :
    Bool × GoOutcome (Option String) :=
  (true, jobResult)

/-- Go runtime rule applied to the task `go w.do(...)`: a panic that reaches
the top of a goroutine uncaught terminates the whole process, so the Worker
survives the job exactly when `workerDo` does not end in a panic. -/
def workerSurvivesJob (jobResult : GoOutcome (Option String)) : Bool :=
  match workerDo jobResult with
  | (_, .ret _) => true
  | (_, .panicked) => false

/-! Model of the LoadTester supervisor (file with `LoadTester`, `generator`,
`AddRunner`, `RemoveRunner`, `UpdateRunner`, `GetRunnersInfo`, `Close`).
Go's `map[string]...` registries are modelled as association lists; the
iteration order of a Go map is unspecified, and no claim below depends on
the order. A registered LoadRunner is modelled by the one bit the registry
claims need: whether its context has been cancelled. -/

/-- Model of one registered LoadRunner: `LoadRunner.Close` cancels its
context, after which its Worker rejects GetConfig and SetConfig. -/
structure LoadRunner where
  closed : Bool
deriving DecidableEq

/-- The two built-in generator functions of the worker package, as symbolic
values (the loadtester only stores and forwards them). -/
inductive GenFn where
  | exponential
  | stable
deriving DecidableEq

/-- Go `generator(mode)` of the loadtester: resolves the pacing mode string
to an interval generator, `none` meaning ASAP; any other string is an
"unknown mode" error. -/
def generator (mode : String) : Except String (Option GenFn) :=
  if mode = "asap" then .ok none
  else if mode = "exponential" then .ok (some .exponential)
  else if mode = "static" then .ok (some .stable)
  else .error ("unknown mode: " ++ mode)

/-- Membership of a key in an association-list map (Go's comma-ok lookup). -/
def hasKey {α : Type} (m : List (String × α)) (k : String) : Bool :=
  m.any (fun p => p.1 == k)

/-- Go map assignment `m[k] = v`: any old binding of `k` is replaced. -/
def mapSet {α : Type} (m : List (String × α)) (k : String) (v : α) :
    List (String × α) :=
  m.filter (fun p => !(p.1 == k)) ++ [(k, v)]

/-- Go `delete(m, k)`. -/
def mapDelete {α : Type} (m : List (String × α)) (k : String) :
    List (String × α) :=
  m.filter (fun p => !(p.1 == k))

/-- Go `LoadTester`: the runner registry. The metrics sink and the default
configuration do not affect the registry claims and are not modelled. -/
structure LoadTester where
  maxInflight : Int
  runners : List (String × LoadRunner)
  runnersMode : List (String × String)
  nextRunnerID : Nat
deriving DecidableEq

/-- Go `NewLoadTester`. -/
def NewLoadTester (maxInflight : Int) : LoadTester :=
  { maxInflight := maxInflight, runners := [], runnersMode := [], nextRunnerID := 0 }

/-- Go `LoadTester.AddRunner`: resolve the mode (unknown mode fails before
any state change), form `runner-<nextRunnerID>` and increment the id counter,
construct the LoadRunner — `newRunnerOk` stands for the outcome of the
external `NewLoadRunner` call (dial and id discovery) — and only on success
register the runner in both maps. -/
def LoadTester.AddRunner (lt : LoadTester) (mode : String) (newRunnerOk : Bool) :
    LoadTester × Option String :=
  match generator mode with
  | .error e => (lt, some e)
  | .ok _ =>
    let runnerID := "runner-" ++ toString lt.nextRunnerID
    let lt₁ : LoadTester := { lt with nextRunnerID := lt.nextRunnerID + 1 }
    if newRunnerOk then
      ({ lt₁ with
          runners := mapSet lt₁.runners runnerID { closed := false }
          runnersMode := mapSet lt₁.runnersMode runnerID mode }, none)
    else (lt₁, some "failed to create runner")

/-- Go `LoadTester.RemoveRunner`: not-found error for an absent id, else
close the runner and delete it from both maps. -/
def LoadTester.RemoveRunner (lt : LoadTester) (runnerID : String) :
    LoadTester × Option String :=
  if hasKey lt.runners runnerID then
    ({ lt with
        runners := mapDelete lt.runners runnerID
        runnersMode := mapDelete lt.runnersMode runnerID }, none)
  else (lt, some ("runner " ++ runnerID ++ " not found"))

/-- Go `LoadTester.UpdateRunner`: resolve the mode, look the runner up,
forward the new WorkerConfig (`setCfgOk` stands for the Worker's verdict on
`SetConfig`), and update the stored mode tag only when the Worker accepted
the configuration. -/
def LoadTester.UpdateRunner (lt : LoadTester) (runnerID : String) (mode : String)
    (setCfgOk : Bool) : LoadTester × Option String :=
  match generator mode with
  | .error e => (lt, some e)
  | .ok _ =>
    if hasKey lt.runners runnerID then
      if setCfgOk then
        ({ lt with runnersMode := mapSet lt.runnersMode runnerID mode }, none)
      else (lt, some "SetConfig failed")
    else (lt, some ("runner " ++ runnerID ++ " not found"))

/-- The body of Go `LoadTester.GetRunnersInfo`'s loop: `runner.GetInfo()`
asks the runner's Worker for its configuration, which fails once the runner
is closed, and any such failure aborts the whole call with that error. The
per-runner Status payload (metrics counters, mode tag) is irrelevant to the
claims; the success value is the list of listed runner ids. -/
def runnersInfoLoop : List (String × LoadRunner) → Except String (List String)
  | [] => .ok []
  | (id, r) :: rest =>
    if r.closed then .error "LoadRunner closed"
    else
      match runnersInfoLoop rest with
      | .error e => .error e
      | .ok l => .ok (id :: l)

/-- Go `LoadTester.GetRunnersInfo`. -/
def LoadTester.GetRunnersInfo (lt : LoadTester) : Except String (List String) :=
  runnersInfoLoop lt.runners

/-- Go `LoadTester.Close`: closes every registered runner and returns nil;
the registry maps are not touched. -/
def LoadTester.Close (lt : LoadTester) : LoadTester × Option String :=
  ({ lt with runners := lt.runners.map (fun p => (p.1, { closed := true })) }, none)

/-- One supervisor operation, with the outcomes of the external calls
(`NewLoadRunner`, `Worker.SetConfig`) as parameters. -/
inductive LTOp where
  | add (mode : String) (newRunnerOk : Bool)
  | remove (id : String)
  | update (id : String) (mode : String) (setCfgOk : Bool)
  | closeAll

/-- The registry state after one supervisor operation. -/
def LoadTester.applyOp (lt : LoadTester) : LTOp → LoadTester
  | .add mode ok => (lt.AddRunner mode ok).1
  | .remove id => (lt.RemoveRunner id).1
  | .update id mode ok => (lt.UpdateRunner id mode ok).1
  | .closeAll => lt.Close.1

/-- The registry state after a sequence of supervisor operations. -/
def LoadTester.applyOps (lt : LoadTester) (ops : List LTOp) : LoadTester :=
  ops.foldl LoadTester.applyOp lt

/-! Model of the options reflector (`client_loadtest/loadrunner/options.go`).
A target struct is a list of field descriptors; a field's reflect value is a
constructor of `FieldValue`, which carries both the declared primitive Kind
and the current value. The `strconv` parsers belong to the Go standard
library, not to this repository, so the embedding is parametric in them: a
parser returns `none` exactly when the Go call returns an error. -/

/-- A struct field's reflect value, by declared Kind. `unsupportedV` covers
every Kind outside `setField`'s switch (structs, slices, maps, ...). Go
float32/float64 are modelled as `ℚ`. -/
inductive FieldValue where
  | strV (s : String)
  | intV (i : Int)
  | uintV (n : Nat)
  | boolV (b : Bool)
  | floatV (q : ℚ)
  | unsupportedV
deriving DecidableEq

/-- The strconv parsers `setField` calls. -/
structure Strconv where
  parseInt : String → Option Int
  parseUint : String → Option Nat
  parseBool : String → Option Bool
  parseFloat : String → Option ℚ

/-- Go `setField`: switch on the field's Kind; string fields always accept
the raw value, the four parsed kinds fail when their parser fails, any other
Kind is unsupported. -/
def setField (sc : Strconv) (v : FieldValue) (value : String) :
    Except String FieldValue :=
  match v with
  | .strV _ => .ok (.strV value)
  | .intV _ =>
    match sc.parseInt value with
    | some i => .ok (.intV i)
    | none => .error "invalid int value"
  | .uintV _ =>
    match sc.parseUint value with
    | some n => .ok (.uintV n)
    | none => .error "invalid uint value"
  | .boolV _ =>
    match sc.parseBool value with
    | some b => .ok (.boolV b)
    | none => .error "invalid bool value"
  | .floatV _ =>
    match sc.parseFloat value with
    | some q => .ok (.floatV q)
    | none => .error "invalid float value"
  | .unsupportedV => .error "unsupported field type"

/-- One field of the target struct: its Go name (used in error messages),
its `name:"..."` tag (`""` when the tag is absent), whether reflect can set
it (exported and addressable), and its value. -/
structure StructField where
  fieldName : String
  nameTag : String
  canSet : Bool
  value : FieldValue
deriving DecidableEq

/-- Lookup in the options map (Go `options[optionName]` with comma-ok). -/
def lookupOpt (options : List (String × String)) (k : String) : Option String :=
  options.lookup k

/-- The field loop of Go `ParseOptions`: fields without a name tag and
option names absent from the map are skipped; a present binding on an
unsettable field or a failing `setField` aborts with an error, leaving that
field and the fields after it untouched (earlier fields keep the values
already written). Returns the updated field list and the error. -/
def parseFields (sc : Strconv) (options : List (String × String)) :
    List StructField → List StructField × Option String
  | [] => ([], none)
  | f :: rest =>
    if f.nameTag = "" then
      let r := parseFields sc options rest
      (f :: r.1, r.2)
    else
      match lookupOpt options f.nameTag with
      | none =>
        let r := parseFields sc options rest
        (f :: r.1, r.2)
      | some value =>
        if f.canSet = false then
          (f :: rest, some ("cannot set field " ++ f.fieldName))
        else
          match setField sc f.value value with
          | .error e =>
            (f :: rest, some ("error setting field " ++ f.fieldName ++ ": " ++ e))
          | .ok v₂ =>
            let r := parseFields sc options rest
            ({ f with value := v₂ } :: r.1, r.2)

/-- Go `ParseOptions` on a target that is a pointer to a struct (the
target-shape checks at the top of the source are outside the model, whose
target is always a struct's field list). -/
def ParseOptions (sc : Strconv) (options : List (String × String))
    (fields : List StructField) : List StructField × Option String :=
  parseFields sc options fields

/-- The bound value does not parse as the field's declared primitive type,
for the four fallible parsed kinds of the claim (integer, unsigned integer,
boolean, floating point). -/
def illTypedFor (sc : Strconv) (v : FieldValue) (s : String) : Bool :=
  match v with
  | .intV _ => (sc.parseInt s).isNone
  | .uintV _ => (sc.parseUint s).isNone
  | .boolV _ => (sc.parseBool s).isNone
  | .floatV _ => (sc.parseFloat s).isNone
  | _ => false

/-! Concrete inputs used by witnesses and counterexamples. -/

/-- Concrete ASAP configuration with two in-flight slots. -/
def cfgTwo : WorkerConfig :=
  { InFlight := 2, IntervalGenerator := none, Qps := 0, Timeout := second }

/-- Concrete ASAP configuration with one in-flight slot. -/
def cfgOne : WorkerConfig :=
  { InFlight := 1, IntervalGenerator := none, Qps := 0, Timeout := second }

/-- Concrete configuration with zero in-flight slots and zero limits. -/
def cfgZero : WorkerConfig :=
  { InFlight := 0, IntervalGenerator := none, Qps := 0, Timeout := 0 }

/-- Concrete paced configuration: stable generator with qps = 0. -/
def cfgStableZero : WorkerConfig :=
  { InFlight := 1, IntervalGenerator := some StableIntervalGenerator, Qps := 0
    Timeout := second }

/-- Worker started with `maxInFlight = 5` and the two-slot configuration. -/
def wStart : Worker := initWorker 5 cfgTwo

/-- The state right after the loop adopts a shrink to one in-flight slot. -/
def wShrunk : Worker := wStart.applyConfig cfgOne

/-! Theorems. First the Worker loop invariant, then the claims. -/

/-- Every step of a Worker execution preserves the loop invariant. -/
theorem wstep_preserves_inv {w w₂ : Worker} (h : WorkerInv w) (hs : WStep w w₂) :
    WorkerInv w₂ := by
  obtain ⟨h1, h2, h3⟩ := h
  cases hs with
  | timerFires hcl hp => exact ⟨h1, h2, h3⟩
  | triggerDrop hcl htr hf hc =>
    refine ⟨?_, ?_, ?_⟩ <;> dsimp only <;> omega
  | triggerLaunch hcl htr hf hc =>
    unfold Worker.launch
    dsimp only
    split <;> refine ⟨?_, ?_, ?_⟩ <;> dsimp only <;> omega
  | jobReturns hf =>
    refine ⟨?_, ?_, ?_⟩ <;> dsimp only <;> omega
  | setConfig c hcl hval hmax =>
    unfold Worker.applyConfig
    refine ⟨?_, ?_, ?_⟩ <;> dsimp only <;> omega
  | getConfig hcl => exact ⟨h1, h2, h3⟩
  | cancel cause =>
    unfold Worker.cancelWith
    split <;> exact ⟨h1, h2, h3⟩

/-- The invariant holds at the start state of a Worker whose initial
configuration respects the data model (`InFlight ≥ 0`). -/
theorem initWorker_inv {m : Int} {c : WorkerConfig} (h0 : 0 ≤ c.InFlight) :
    WorkerInv (initWorker m c) := by
  refine ⟨?_, le_refl _, le_refl _⟩
  simp [initWorker, Int.toNat_of_nonneg h0]

/-- The invariant holds in every reachable state of a Worker started with a
configuration respecting the data model. -/
theorem reachable_inv {m : Int} {c : WorkerConfig} {w : Worker}
    (h0 : 0 ≤ c.InFlight) (hr : Reachable (initWorker m c) w) : WorkerInv w := by
  induction hr with
  | refl => exact initWorker_inv h0
  | tail _ hs ih => exact wstep_preserves_inv ih hs

/-- C1: in every reachable state of a Worker started within the data model
(`InFlight ≥ 0`), the number of concurrently running jobs is at most the
maximum of `cfg.InFlight` over the initial and all adopted configurations
(the ghost `histMax`); every step that does not change the configuration
leaves the effective ceiling `currentInFlight` non-increasing; and every
permit acquired while `currentInFlight > cfg.InFlight` is dropped instead of
launching a job: the in-flight count is unchanged and the effective ceiling
decreases by exactly one. -/
theorem worker_concurrency_ceiling (m : Int) (c : WorkerConfig) (w : Worker)
    (h0 : 0 ≤ c.InFlight) (hr : Reachable (initWorker m c) w) :
    (w.inFlight : Int) ≤ w.histMax ∧
    (∀ w₂ : Worker, WStep w w₂ → w₂.cfg = w.cfg →
      w₂.currentInFlight ≤ w.currentInFlight) ∧
    (∀ w₂ : Worker, WStep w w₂ → w.cfg.InFlight < w.currentInFlight →
      w₂.freeTokens < w.freeTokens →
      w₂.inFlight = w.inFlight ∧ w₂.currentInFlight = w.currentInFlight - 1) := by
  obtain ⟨h1, h2, h3⟩ := reachable_inv h0 hr
  refine ⟨by omega, ?_, ?_⟩
  · intro w₂ hs hcfg
    cases hs with
    | timerFires hcl hp => dsimp only; omega
    | triggerDrop hcl htr hf hc => dsimp only; omega
    | triggerLaunch hcl htr hf hc =>
      unfold Worker.launch
      dsimp only
      split <;> dsimp only <;> omega
    | jobReturns hf => dsimp only; omega
    | setConfig c₂ hcl hval hmax =>
      unfold Worker.applyConfig at hcfg ⊢
      dsimp only at hcfg ⊢
      subst hcfg
      omega
    | getConfig hcl => omega
    | cancel cause =>
      unfold Worker.cancelWith
      split
      · omega
      · dsimp only; omega
  · intro w₂ hs hpend hfree
    cases hs with
    | timerFires hcl hp => dsimp only at hfree; omega
    | triggerDrop hcl htr hf hc => exact ⟨rfl, rfl⟩
    | triggerLaunch hcl htr hf hc => exact absurd hpend hc
    | jobReturns hf => dsimp only at hfree; omega
    | setConfig c₂ hcl hval hmax =>
      unfold Worker.applyConfig at hfree
      dsimp only at hfree
      omega
    | getConfig hcl => omega
    | cancel cause =>
      unfold Worker.cancelWith at hfree
      split at hfree
      · omega
      · dsimp only at hfree; omega

/-- Witness for the concurrency ceiling theorem: the start state over the
two-slot configuration with `maxInFlight = 5`. -/
theorem worker_concurrency_ceiling_witness :
    ((initWorker 5 cfgTwo).inFlight : Int) ≤ (initWorker 5 cfgTwo).histMax ∧
    (∀ w₂ : Worker, WStep (initWorker 5 cfgTwo) w₂ →
      w₂.cfg = (initWorker 5 cfgTwo).cfg →
      w₂.currentInFlight ≤ (initWorker 5 cfgTwo).currentInFlight) ∧
    (∀ w₂ : Worker, WStep (initWorker 5 cfgTwo) w₂ →
      (initWorker 5 cfgTwo).cfg.InFlight < (initWorker 5 cfgTwo).currentInFlight →
      w₂.freeTokens < (initWorker 5 cfgTwo).freeTokens →
      w₂.inFlight = (initWorker 5 cfgTwo).inFlight ∧
      w₂.currentInFlight = (initWorker 5 cfgTwo).currentInFlight - 1) :=
  worker_concurrency_ceiling 5 cfgTwo (initWorker 5 cfgTwo) (by decide)
    (Reachable.refl _)

/-- C2 (amended): in every reachable state of a Worker started within the
data model, the token equation that actually holds is
`free_tokens + in_flight = currentInFlight`; equivalently, since
`pending_drops = currentInFlight - cfg.InFlight`, it is
`free_tokens + in_flight = cfg.InFlight + pending_drops`, with the
pending-drop count non-negative. Every loop step preserves this
(`wstep_preserves_inv` covers timer fire, permit acquisition, SetConfig grow
and shrink, GetConfig, job completion and cancellation). -/
theorem worker_tokens_invariant (m : Int) (c : WorkerConfig) (w : Worker)
    (h0 : 0 ≤ c.InFlight) (hr : Reachable (initWorker m c) w) :
    (w.freeTokens : Int) + (w.inFlight : Int) = w.currentInFlight ∧
    (w.freeTokens : Int) + (w.inFlight : Int) = w.cfg.InFlight + w.pendingDrops ∧
    0 ≤ w.pendingDrops := by
  obtain ⟨h1, h2, h3⟩ := reachable_inv h0 hr
  unfold Worker.pendingDrops
  exact ⟨h1, by omega, by omega⟩

/-- Witness for the token invariant theorem: the start state over the
two-slot configuration with `maxInFlight = 5`. -/
theorem worker_tokens_invariant_witness :
    ((initWorker 5 cfgTwo).freeTokens : Int) + ((initWorker 5 cfgTwo).inFlight : Int)
        = (initWorker 5 cfgTwo).currentInFlight ∧
    ((initWorker 5 cfgTwo).freeTokens : Int) + ((initWorker 5 cfgTwo).inFlight : Int)
        = (initWorker 5 cfgTwo).cfg.InFlight + (initWorker 5 cfgTwo).pendingDrops ∧
    0 ≤ (initWorker 5 cfgTwo).pendingDrops :=
  worker_tokens_invariant 5 cfgTwo (initWorker 5 cfgTwo) (by decide)
    (Reachable.refl _)

/-- C2 counterexample: the state reached by one accepted shrink from two
slots down to one slot is reachable from the start state, and there the
claimed equation `free_tokens + in_flight + pending_drops = currentInFlight`
fails: free_tokens = 2, in_flight = 0, pending_drops = 1,
currentInFlight = 2, and 2 + 0 + 1 ≠ 2. -/
theorem worker_tokens_equation_counterexample :
    Reachable wStart wShrunk ∧
    ¬ ((wShrunk.freeTokens : Int) + (wShrunk.inFlight : Int) + wShrunk.pendingDrops
        = wShrunk.currentInFlight) := by
  constructor
  · exact Reachable.tail (Reachable.refl _)
      (WStep.setConfig wStart cfgOne rfl (by decide) (by decide))
  · decide

/-- C3: a successful SetConfig on a running Worker — the configuration valid
and within the maxInFlight bound — followed by GetConfig with no intervening
SetConfig succeeds and returns a configuration equal to the one set, in all
four fields. The reply is the snapshot the loop sends by value over the
reply channel — a copy, not the loop's own record. -/
theorem setConfig_getConfig_roundtrip (w : Worker) (c : WorkerConfig)
    (hval : c.IsValid = none) (hmax : c.InFlight ≤ w.maxInFlight)
    (hopen : w.closed = none) :
    (w.setConfigCall c).1 = none ∧
    ((w.setConfigCall c).2).GetConfig = .ok c ∧
    (∀ r : WorkerConfig, ((w.setConfigCall c).2).GetConfig = .ok r →
      r.InFlight = c.InFlight ∧ r.IntervalGenerator = c.IntervalGenerator ∧
      r.Qps = c.Qps ∧ r.Timeout = c.Timeout) := by
  have hlt : ¬ w.maxInFlight < c.InFlight := not_lt.mpr hmax
  have hres : w.setConfigCall c = (none, w.applyConfig c) := by
    simp only [Worker.setConfigCall, hval, hopen, if_neg hlt]
  have hget : (w.applyConfig c).GetConfig = .ok c := by
    unfold Worker.GetConfig Worker.applyConfig
    dsimp only
    rw [hopen]
  rw [hres]
  refine ⟨rfl, hget, ?_⟩
  intro r hr
  rw [hget] at hr
  injection hr with h
  subst h
  exact ⟨rfl, rfl, rfl, rfl⟩

/-- Witness for the SetConfig/GetConfig round trip: setting the one-slot
configuration on the freshly started two-slot Worker. -/
theorem setConfig_getConfig_roundtrip_witness :
    (wStart.setConfigCall cfgOne).1 = none ∧
    ((wStart.setConfigCall cfgOne).2).GetConfig = .ok cfgOne ∧
    (∀ r : WorkerConfig, ((wStart.setConfigCall cfgOne).2).GetConfig = .ok r →
      r.InFlight = cfgOne.InFlight ∧ r.IntervalGenerator = cfgOne.IntervalGenerator ∧
      r.Qps = cfgOne.Qps ∧ r.Timeout = cfgOne.Timeout) :=
  setConfig_getConfig_roundtrip wStart cfgOne (by decide) (by decide) rfl

/-- C4: SetConfig returns an Invalid error exactly when the supplied
configuration has InFlight < 0, Qps < 0, Timeout < 0, or
InFlight > maxInFlight (the validity checks run before the liveness check,
so this holds whether or not the Worker has terminated); once the Worker
context is cancelled — by Close or by parent cancellation, whatever the
cause — SetConfig with a valid in-bound configuration and GetConfig both
fail with the Closed kind carrying that cause; and a failing SetConfig
leaves the Worker state, its configuration included, unchanged. -/
theorem setConfig_error_conditions :
    (∀ (w : Worker) (c : WorkerConfig),
      invalidErr (w.setConfigCall c).1 = true ↔
        (c.InFlight < 0 ∨ c.Qps < 0 ∨ c.Timeout < 0 ∨ w.maxInFlight < c.InFlight)) ∧
    (∀ (w : Worker) (c : WorkerConfig) (cause : String), w.closed = some cause →
      c.IsValid = none → c.InFlight ≤ w.maxInFlight →
      (w.setConfigCall c).1 = some (.closed cause) ∧
      w.GetConfig = .error (.closed cause)) ∧
    (∀ (w : Worker) (c : WorkerConfig),
      (w.setConfigCall c).1.isSome = true → (w.setConfigCall c).2 = w) := by
  refine ⟨?_, ?_, ?_⟩
  · intro w c
    by_cases hIF : c.InFlight < 0
    · simp [Worker.setConfigCall, WorkerConfig.IsValid, hIF, invalidErr]
    · by_cases hQ : c.Qps < 0
      · simp [Worker.setConfigCall, WorkerConfig.IsValid, hIF, hQ, invalidErr]
      · by_cases hT : c.Timeout < 0
        · simp [Worker.setConfigCall, WorkerConfig.IsValid, hIF, hQ, hT, invalidErr]
        · by_cases hM : w.maxInFlight < c.InFlight
          · simp [Worker.setConfigCall, WorkerConfig.IsValid, hIF, hQ, hT, hM,
              invalidErr]
          · cases hcl : w.closed <;>
              simp [Worker.setConfigCall, WorkerConfig.IsValid, hIF, hQ, hT, hM,
                hcl, invalidErr]
  · intro w c cause hcl hval hmax
    constructor
    · simp [Worker.setConfigCall, hval, hcl, not_lt.mpr hmax]
    · simp [Worker.GetConfig, hcl]
  · intro w c
    unfold Worker.setConfigCall
    cases hv : c.IsValid with
    | some msg => intro _; rfl
    | none =>
      by_cases hM : w.maxInFlight < c.InFlight
      · simp [hM]
      · cases hcl : w.closed <;> simp [hM]

/-- C5 (amended): NewWorker fails, always with an Invalid-kind error,
exactly when the job function is nil, the resolved MaxInFlight is negative,
or the resolved initial InFlight exceeds MaxInFlight. With MaxInFlight = 0,
construction fails for every configuration with InFlight > 0 (the default
InFlight = 1 included) — but succeeds when the initial InFlight is 0, so
the claim's universally quantified boundary sentence fails on the code. -/
theorem newWorker_invalid_conditions :
    (∀ (j : Bool) (opts : List (WorkerInit → WorkerInit)),
      exceptIsOk (NewWorker j opts) = true ↔
        ¬ (j = false ∨ (resolveOpts opts).maxInFlight < 0 ∨
           (resolveOpts opts).maxInFlight < (resolveOpts opts).cfg.InFlight)) ∧
    (∀ (j : Bool) (opts : List (WorkerInit → WorkerInit)),
      invalidErrE (NewWorker j opts) = true ↔
        (j = false ∨ (resolveOpts opts).maxInFlight < 0 ∨
         (resolveOpts opts).maxInFlight < (resolveOpts opts).cfg.InFlight)) ∧
    (∀ c : WorkerConfig, 0 < c.InFlight →
      invalidErrE (NewWorker true [WithConfig c, WithMaxInFlight 0]) = true) ∧
    (∀ c : WorkerConfig, c.InFlight = 0 →
      exceptIsOk (NewWorker true [WithConfig c, WithMaxInFlight 0]) = true) := by
  have hcase : ∀ (j : Bool) (opts : List (WorkerInit → WorkerInit)),
      (exceptIsOk (NewWorker j opts) = true ↔
        ¬ (j = false ∨ (resolveOpts opts).maxInFlight < 0 ∨
           (resolveOpts opts).maxInFlight < (resolveOpts opts).cfg.InFlight)) ∧
      (invalidErrE (NewWorker j opts) = true ↔
        (j = false ∨ (resolveOpts opts).maxInFlight < 0 ∨
         (resolveOpts opts).maxInFlight < (resolveOpts opts).cfg.InFlight)) := by
    intro j opts
    cases j
    · simp [NewWorker, exceptIsOk, invalidErrE]
    · by_cases h1 : (resolveOpts opts).maxInFlight < 0
      · simp [NewWorker, exceptIsOk, invalidErrE, h1]
      · by_cases h2 : (resolveOpts opts).maxInFlight < (resolveOpts opts).cfg.InFlight
        · simp [NewWorker, exceptIsOk, invalidErrE, h1, h2]
        · simp [NewWorker, exceptIsOk, invalidErrE, h1, h2]
  refine ⟨fun j opts => (hcase j opts).1, fun j opts => (hcase j opts).2, ?_, ?_⟩
  · intro c hc
    simp [NewWorker, resolveOpts, defaultWorkerInit, WithConfig, WithMaxInFlight,
      invalidErrE, hc]
  · intro c hc
    simp [NewWorker, resolveOpts, defaultWorkerInit, WithConfig, WithMaxInFlight,
      exceptIsOk, hc]

/-- C5 counterexample: construction with MaxInFlight = 0 and the zero-slot
configuration succeeds, where the claim says construction with
MaxInFlight = 0 fails for every initial configuration, InFlight = 0
included. -/
theorem newWorker_zero_max_succeeds :
    exceptIsOk (NewWorker true [WithConfig cfgZero, WithMaxInFlight 0]) = true := by
  rfl

/-- C6 at the failing input: for a panicking job the deferred permit release
in `Worker.do` still runs (first component of `workerDo`), but the package
contains no recover, so the panic propagates uncaught out of the launched
goroutine and the process — the Worker with it — does not survive; a
returning job (error or not) is survived. The claim that the Worker does not
crash on a panicking job fails on the code. -/
theorem worker_panic_not_contained :
    workerDo GoOutcome.panicked = (true, GoOutcome.panicked) ∧
    workerSurvivesJob GoOutcome.panicked = false ∧
    (∀ e : Option String, workerSurvivesJob (GoOutcome.ret e) = true) :=
  ⟨rfl, rfl, fun _ => rfl⟩

/-- C7: with a non-nil built-in generator — stable, or exponential at any
sample — and Qps = 0, the Worker behaves as in ASAP mode: the generator
returns 0, `setTimer` returns a nil timer, the loop start and every adoption
of such a configuration bind the trigger directly to the token pool with no
timer set, and whenever the trigger is bound and a permit is free (with no
pending downsize) the launch step is enabled. -/
theorem qps_zero_degenerates_to_asap (s : ℚ) (c : WorkerConfig) (g : ℚ → Duration)
    (hg : c.IntervalGenerator = some g)
    (hgen : g = StableIntervalGenerator ∨ g = ExponentialIntervalGenerator s)
    (hq : c.Qps = 0) :
    g c.Qps = 0 ∧
    setTimer c = false ∧
    (∀ m : Int, (initWorker m c).triggerEnabled = true ∧
      (initWorker m c).timerSet = false) ∧
    (∀ w : Worker, (w.applyConfig c).triggerEnabled = true ∧
      (w.applyConfig c).timerSet = false) ∧
    (∀ w : Worker, w.closed = none → w.triggerEnabled = true →
      0 < w.freeTokens → ¬ w.cfg.InFlight < w.currentInFlight →
      WStep w w.launch) := by
  have hg0 : g c.Qps = 0 := by
    rw [hq]
    rcases hgen with h | h <;> subst h <;>
      simp [StableIntervalGenerator, ExponentialIntervalGenerator]
  have hst : setTimer c = false := by
    simp [setTimer, hg, hg0]
  refine ⟨hg0, hst, ?_, ?_, ?_⟩
  · intro m
    constructor <;> simp [initWorker, hst]
  · intro w
    constructor <;> simp [Worker.applyConfig, hst]
  · intro w h1 h2 h3 h4
    exact WStep.triggerLaunch w h1 h2 h3 h4

/-- Witness for the qps = 0 claim: the stable generator over the concrete
paced configuration with Qps = 0. -/
theorem qps_zero_degenerates_to_asap_witness :
    StableIntervalGenerator cfgStableZero.Qps = 0 ∧
    setTimer cfgStableZero = false ∧
    (∀ m : Int, (initWorker m cfgStableZero).triggerEnabled = true ∧
      (initWorker m cfgStableZero).timerSet = false) ∧
    (∀ w : Worker, (w.applyConfig cfgStableZero).triggerEnabled = true ∧
      (w.applyConfig cfgStableZero).timerSet = false) ∧
    (∀ w : Worker, w.closed = none → w.triggerEnabled = true →
      0 < w.freeTokens → ¬ w.cfg.InFlight < w.currentInFlight →
      WStep w w.launch) :=
  qps_zero_degenerates_to_asap 0 cfgStableZero StableIntervalGenerator rfl
    (Or.inl rfl) rfl

/-- Key membership after a Go map assignment. -/
theorem hasKey_mapSet {α : Type} (m : List (String × α)) (k q : String) (v : α) :
    hasKey (mapSet m k v) q = (q == k || hasKey m q) := by
  by_cases h : q = k
  · subst h
    simp [hasKey, mapSet, List.any_append]
  · have h2 : ¬ k = q := fun hh => h hh.symm
    have hqk : (q == k) = false := by simp [h]
    have hkq : (k == q) = false := by simp [h2]
    have hfun : (fun p : String × α => !(p.1 == k) && (p.1 == q)) =
        (fun p : String × α => p.1 == q) := by
      funext p
      by_cases hp : p.1 = q
      · simp [hp, h]
      · simp [hp]
    simp [hasKey, mapSet, List.any_append, List.any_filter, hfun, hqk, hkq]

/-- Key membership after a Go map deletion. -/
theorem hasKey_mapDelete {α : Type} (m : List (String × α)) (k q : String) :
    hasKey (mapDelete m k) q = (!(q == k) && hasKey m q) := by
  by_cases h : q = k
  · subst h
    have hfun : (fun p : String × α => !(p.1 == q) && (p.1 == q)) =
        (fun p : String × α => false) := by
      funext p
      by_cases hp : p.1 = q <;> simp [hp]
    simp [hasKey, mapDelete, List.any_filter, hfun]
  · have hfun : (fun p : String × α => !(p.1 == k) && (p.1 == q)) =
        (fun p : String × α => p.1 == q) := by
      funext p
      by_cases hp : p.1 = q
      · simp [hp, h]
      · simp [hp]
    simp [hasKey, mapDelete, List.any_filter, hfun, h]

/-- Rewriting every value of an association list leaves key membership
unchanged. -/
theorem hasKey_mapValues {α : Type} (m : List (String × α)) (f : α → α) (q : String) :
    hasKey (m.map (fun p => (p.1, f p.2))) q = hasKey m q := by
  unfold hasKey
  rw [List.any_map]
  rfl

/-- C8 (amended): LoadTester.Close closes every registered runner and
returns nil, but does not clear the registry: the key set of both maps is
exactly what it was, Close is idempotent, and a GetRunnersInfo after Close
on a non-empty registry fails with the runners' Closed error instead of
reporting zero runners. -/
theorem loadtester_close_spec :
    (∀ lt : LoadTester, (lt.Close.1.runners).all (fun p => p.2.closed) = true) ∧
    (∀ lt : LoadTester, lt.Close.1.runners.map Prod.fst = lt.runners.map Prod.fst ∧
      lt.Close.1.runnersMode = lt.runnersMode) ∧
    (∀ lt : LoadTester, lt.Close.1.Close.1 = lt.Close.1 ∧ lt.Close.2 = none ∧
      lt.Close.1.Close.2 = none) ∧
    (∀ lt : LoadTester, lt.runners ≠ [] →
      ∃ e, lt.Close.1.GetRunnersInfo = .error e) := by
  refine ⟨?_, ?_, ?_, ?_⟩
  · intro lt
    simp [LoadTester.Close, List.all_map, Function.comp]
  · intro lt
    constructor
    · simp [LoadTester.Close, List.map_map, Function.comp]
    · rfl
  · intro lt
    refine ⟨?_, rfl, rfl⟩
    unfold LoadTester.Close
    dsimp only
    rw [List.map_map]
    rfl
  · intro lt hne
    unfold LoadTester.GetRunnersInfo LoadTester.Close
    dsimp only
    cases hm : lt.runners with
    | nil => exact absurd hm hne
    | cons a rest => exact ⟨"LoadRunner closed", rfl⟩

/-- C8 counterexample: add one runner, then Close: the registry still holds
the entry for runner-0 (one entry, its key present), where the claim says
the registry holds no runner entries after Close. -/
theorem loadtester_close_keeps_entries :
    hasKey ((NewLoadTester 10).AddRunner "asap" true).1.Close.1.runners "runner-0"
        = true ∧
    (((NewLoadTester 10).AddRunner "asap" true).1.Close.1.runners).length = 1 := by
  exact ⟨rfl, rfl⟩

/-- One supervisor operation keeps the two registry maps on the same key
set. -/
theorem hasKey_closeAll (m : List (String × LoadRunner)) (q : String) :
    hasKey (m.map (fun p => (p.1, ({ closed := true } : LoadRunner)))) q
      = hasKey m q := by
  unfold hasKey
  rw [List.any_map]
  rfl

/-- One supervisor operation keeps the two registry maps on the same key
set. -/
theorem applyOp_aligned (lt : LoadTester) (op : LTOp)
    (h : ∀ q, hasKey lt.runners q = hasKey lt.runnersMode q) :
    ∀ q, hasKey (lt.applyOp op).runners q = hasKey (lt.applyOp op).runnersMode q := by
  intro q
  cases op with
  | add mode ok =>
    show hasKey (lt.AddRunner mode ok).1.runners q
        = hasKey (lt.AddRunner mode ok).1.runnersMode q
    unfold LoadTester.AddRunner
    cases hg : generator mode with
    | error e => exact h q
    | ok g =>
      cases ok with
      | true => simp [hasKey_mapSet, h q]
      | false => exact h q
  | remove id =>
    show hasKey (lt.RemoveRunner id).1.runners q
        = hasKey (lt.RemoveRunner id).1.runnersMode q
    unfold LoadTester.RemoveRunner
    by_cases hk : hasKey lt.runners id = true
    · rw [if_pos hk]
      show hasKey (mapDelete lt.runners id) q = hasKey (mapDelete lt.runnersMode id) q
      rw [hasKey_mapDelete, hasKey_mapDelete, h q]
    · rw [if_neg hk]
      exact h q
  | update id mode ok =>
    show hasKey (lt.UpdateRunner id mode ok).1.runners q
        = hasKey (lt.UpdateRunner id mode ok).1.runnersMode q
    unfold LoadTester.UpdateRunner
    cases hg : generator mode with
    | error e => exact h q
    | ok g =>
      by_cases hk : hasKey lt.runners id = true
      · rw [if_pos hk]
        cases ok with
        | true =>
          show hasKey lt.runners q = hasKey (mapSet lt.runnersMode id mode) q
          rw [hasKey_mapSet, h q]
          by_cases hq : q = id
          · subst hq
            rw [← h q]
            simp [hk]
          · simp [hq]
        | false => exact h q
      · rw [if_neg hk]
        exact h q
  | closeAll =>
    show hasKey lt.Close.1.runners q = hasKey lt.Close.1.runnersMode q
    unfold LoadTester.Close
    show hasKey (lt.runners.map (fun p => (p.1, ({ closed := true } : LoadRunner)))) q
        = hasKey lt.runnersMode q
    rw [hasKey_closeAll]
    exact h q

/-- A sequence of supervisor operations keeps the two registry maps on the
same key set. -/
theorem applyOps_aligned (ops : List LTOp) (lt : LoadTester)
    (h : ∀ q, hasKey lt.runners q = hasKey lt.runnersMode q) :
    ∀ q, hasKey (lt.applyOps ops).runners q = hasKey (lt.applyOps ops).runnersMode q := by
  induction ops generalizing lt with
  | nil => exact h
  | cons op rest ih => exact ih _ (applyOp_aligned lt op h)

/-- C10: in every LoadTester state reachable from a fresh registry through
any sequence of AddRunner, UpdateRunner, RemoveRunner and Close operations,
the `runners` and `runnersMode` maps have exactly the same key set; a
successful AddRunner registers the new runner id in both maps, RemoveRunner
removes it from both (for the mode map, under the key-set alignment that
holds in every reachable state), and UpdateRunner and Close never add or
remove a key. -/
theorem registry_key_sets_aligned :
    (∀ (m : Int) (ops : List LTOp) (q : String),
      hasKey ((NewLoadTester m).applyOps ops).runners q =
        hasKey ((NewLoadTester m).applyOps ops).runnersMode q) ∧
    (∀ (lt : LoadTester) (mode : String) (g : Option GenFn), generator mode = .ok g →
      hasKey (lt.AddRunner mode true).1.runners
          ("runner-" ++ toString lt.nextRunnerID) = true ∧
      hasKey (lt.AddRunner mode true).1.runnersMode
          ("runner-" ++ toString lt.nextRunnerID) = true) ∧
    (∀ (lt : LoadTester) (id : String),
      hasKey (lt.RemoveRunner id).1.runners id = false ∧
      (hasKey lt.runnersMode id = hasKey lt.runners id →
        hasKey (lt.RemoveRunner id).1.runnersMode id = false)) ∧
    (∀ (lt : LoadTester) (id mode : String) (ok : Bool) (q : String),
      hasKey (lt.UpdateRunner id mode ok).1.runners q = hasKey lt.runners q) ∧
    (∀ (lt : LoadTester) (q : String),
      hasKey lt.Close.1.runners q = hasKey lt.runners q ∧
      lt.Close.1.runnersMode = lt.runnersMode) := by
  refine ⟨?_, ?_, ?_, ?_, ?_⟩
  · intro m ops q
    exact applyOps_aligned ops (NewLoadTester m) (fun _ => rfl) q
  · intro lt mode g hg
    unfold LoadTester.AddRunner
    rw [hg]
    constructor <;> simp [hasKey_mapSet]
  · intro lt id
    constructor
    · unfold LoadTester.RemoveRunner
      by_cases hk : hasKey lt.runners id = true
      · rw [if_pos hk]
        show hasKey (mapDelete lt.runners id) id = false
        rw [hasKey_mapDelete]
        simp
      · rw [if_neg hk]
        show hasKey lt.runners id = false
        simpa using hk
    · intro halign
      unfold LoadTester.RemoveRunner
      by_cases hk : hasKey lt.runners id = true
      · rw [if_pos hk]
        show hasKey (mapDelete lt.runnersMode id) id = false
        rw [hasKey_mapDelete]
        simp
      · rw [if_neg hk]
        show hasKey lt.runnersMode id = false
        rw [halign]
        simpa using hk
  · intro lt id mode ok q
    unfold LoadTester.UpdateRunner
    cases hg : generator mode with
    | error e => rfl
    | ok g =>
      by_cases hk : hasKey lt.runners id = true
      · rw [if_pos hk]
        cases ok <;> rfl
      · rw [if_neg hk]
  · intro lt q
    refine ⟨?_, rfl⟩
    show hasKey (lt.runners.map (fun p => (p.1, ({ closed := true } : LoadRunner)))) q
        = hasKey lt.runners q
    exact hasKey_closeAll lt.runners q

/-- A value that is ill-typed for a field's declared kind makes `setField`
fail. -/
theorem setField_err_of_illTyped (sc : Strconv) (v : FieldValue) (s : String)
    (hill : illTypedFor sc v s = true) : ∃ e, setField sc v s = .error e := by
  cases v with
  | strV t => simp [illTypedFor] at hill
  | intV i =>
    have hn : sc.parseInt s = none := by
      simpa [illTypedFor, Option.isNone_iff_eq_none] using hill
    exact ⟨"invalid int value", by simp [setField, hn]⟩
  | uintV n =>
    have hn : sc.parseUint s = none := by
      simpa [illTypedFor, Option.isNone_iff_eq_none] using hill
    exact ⟨"invalid uint value", by simp [setField, hn]⟩
  | boolV b =>
    have hn : sc.parseBool s = none := by
      simpa [illTypedFor, Option.isNone_iff_eq_none] using hill
    exact ⟨"invalid bool value", by simp [setField, hn]⟩
  | floatV q =>
    have hn : sc.parseFloat s = none := by
      simpa [illTypedFor, Option.isNone_iff_eq_none] using hill
    exact ⟨"invalid float value", by simp [setField, hn]⟩
  | unsupportedV => exact ⟨"unsupported field type", rfl⟩

/-- If some declared field binds an ill-typed value in the options map, the
field loop ends with an error. -/
theorem parseFields_err_of_illTyped (sc : Strconv) (options : List (String × String))
    (fields : List StructField) (f : StructField) (hf : f ∈ fields)
    (htag : ¬ f.nameTag = "") (v : String)
    (hv : lookupOpt options f.nameTag = some v)
    (hill : illTypedFor sc f.value v = true) :
    ((parseFields sc options fields).2).isSome = true := by
  induction fields with
  | nil => cases hf
  | cons a rest ih =>
    rcases List.mem_cons.mp hf with rfl | hf₂
    · unfold parseFields
      rw [if_neg htag, hv]
      by_cases hcs : f.canSet = false
      · simp [hcs]
      · obtain ⟨e, he⟩ := setField_err_of_illTyped sc f.value v hill
        simp [hcs, he]
    · unfold parseFields
      by_cases h1 : a.nameTag = ""
      · simpa [h1] using ih hf₂
      · cases h2 : lookupOpt options a.nameTag with
        | none => simpa [h1, h2] using ih hf₂
        | some value =>
          by_cases h3 : a.canSet = false
          · simp [h1, h2, h3]
          · cases h4 : setField sc a.value value with
            | error e => simp [h1, h2, h3, h4]
            | ok v₂ => simpa [h1, h2, h3, h4] using ih hf₂

/-- A field whose option name is untagged or absent from the map comes out
of the field loop unchanged, at its original position. -/
theorem parseFields_skips_unbound (sc : Strconv) (options : List (String × String))
    (fields : List StructField) (i : Nat)
    (hcond : ∀ f, fields[i]? = some f →
      (f.nameTag = "" ∨ lookupOpt options f.nameTag = none)) :
    ((parseFields sc options fields).1)[i]? = fields[i]? := by
  induction fields generalizing i with
  | nil => simp [parseFields]
  | cons a rest ih =>
    by_cases h1 : a.nameTag = ""
    · cases i with
      | zero => simp [parseFields, h1]
      | succ n =>
        simp only [parseFields, h1, if_true, List.getElem?_cons_succ]
        exact ih n (fun f hf => hcond f (by simpa using hf))
    · cases h2 : lookupOpt options a.nameTag with
      | none =>
        cases i with
        | zero => simp [parseFields, h1, h2]
        | succ n =>
          simp only [parseFields, h2]
          simp only [h1, if_false, List.getElem?_cons_succ]
          exact ih n (fun f hf => hcond f (by simpa using hf))
      | some value =>
        cases i with
        | zero =>
          rcases hcond a (by simp) with h | h
          · exact absurd h h1
          · simp [h] at h2
        | succ n =>
          by_cases h3 : a.canSet = false
          · simp [parseFields, h1, h2, h3]
          · cases h4 : setField sc a.value value with
            | error e => simp [parseFields, h1, h2, h3, h4]
            | ok v₂ =>
              simp only [parseFields, h2, h4]
              simp [h1, h3]
              exact ih n (fun f hf => hcond f (by simpa using hf))

/-- C9: for every target option record and string-keyed options map, a
declared option name (a field with a name tag) bound to a value that does
not parse as the field's declared primitive type (integer, unsigned integer,
boolean or floating point) makes ParseOptions return an error — the
Invalid kind, as every ParseOptions error is — and every field whose option
name is untagged or absent from the map keeps its value unchanged. -/
theorem parseOptions_illtyped_and_frame (sc : Strconv)
    (options : List (String × String)) (fields : List StructField) :
    (∀ f ∈ fields, ¬ f.nameTag = "" → ∀ v, lookupOpt options f.nameTag = some v →
      illTypedFor sc f.value v = true →
      ((ParseOptions sc options fields).2).isSome = true) ∧
    (∀ i : Nat, (∀ f, fields[i]? = some f →
        (f.nameTag = "" ∨ lookupOpt options f.nameTag = none)) →
      ((ParseOptions sc options fields).1)[i]? = fields[i]?) := by
  constructor
  · intro f hf htag v hv hill
    exact parseFields_err_of_illTyped sc options fields f hf htag v hv hill
  · intro i hcond
    exact parseFields_skips_unbound sc options fields i hcond

end Manul
